import Mathlib

/-!
Verification development for the IndexedDB-backed crypto store
(`src/crates/matrix-sdk-crypto/src/store/indexeddb.rs`).

The store keeps named key-value partitions (IndexedDB object stores) whose
keys are strings ordered lexicographically by character code.  We embed a
partition as an association list with map semantics (`pput` replaces,
`pdel` removes every binding of the key) and embed each public operation of
`IndexeddbStore` as an explicit state-passing function.  Fallible
serialization (`JsValue::from_serde`, `pickle`) is embedded by giving each
payload an `Option String` serialized form (`none` = the serialization or
encryption of that payload fails).  The engine's commit (`tx.await`) is
embedded by a `commitOk : Bool` parameter; a transaction that does not
commit leaves the durable partitions unchanged (IndexedDB aborts it).
`save_changes` additionally returns the ordered trace of observable actions
(transaction opening, pickling, partition writes, commit, cache merges) so
that ordering claims can be stated.
-/

namespace MatrixSdkCrypto

/-- A named key-value partition: an association list with map semantics. -/
abbrev Partition := List (String × String)

/-- Point lookup in a partition. -/
def pget : Partition → String → Option String
  | [], _ => none
  | (k', v) :: rest, k => if k' = k then some v else pget rest k

/-- Delete a key from a partition (removes every binding of that key;
deleting an absent key is a no-op, as in IndexedDB). -/
def pdel (p : Partition) (k : String) : Partition :=
  p.filter (fun e => !(e.1 = k : Bool))

/-- Upsert into a partition (IndexedDB `put_key_val`). -/
def pput (p : Partition) (k v : String) : Partition :=
  (k, v) :: pdel p k

-- The object-store names of `mod KEYS`.
namespace KEYS

def CORE : String := "core"

def SESSION : String := "session"

def INBOUND_GROUP_SESSIONS : String := "inbound_group_sessions"

def OUTBOUND_GROUP_SESSIONS : String := "outbound_group_sessions"

def TRACKED_USERS : String := "tracked_users"

def OLM_HASHES : String := "olm_hashes"

def DEVICES : String := "devices"

def IDENTITIES : String := "identities"

def OUTGOING_SECRET_REQUESTS : String := "outgoing_secret_requests"

def UNSENT_SECRET_REQUESTS : String := "unsent_secret_requests"

def SECRET_REQUESTS_BY_INFO : String := "secret_requests_by_info"

def PICKLE_KEY : String := "pickle_key"

def ACCOUNT : String := "account"

def PRIVATE_IDENTITY : String := "private_identity"

end KEYS

/-- The cached `(user id, device id, identity key set)` singleton. -/
structure AccountInfo where
  user_id : String
  device_id : String
  identity_keys : String
deriving DecidableEq, Repr

/-- A `ReadOnlyAccount` to be saved.  `ser` is the result of
`a.pickle(mode)` followed by `JsValue::from_serde` (`none` = that
serialization fails). -/
structure Account where
  user_id : String
  device_id : String
  identity_keys : String
  ser : Option String
deriving DecidableEq, Repr

/-- A `PrivateCrossSigningIdentity` to be saved.  `pickleOk` is whether
`i.pickle(key)` succeeds; `ser` is the `JsValue::from_serde` result of the
pickle. -/
structure PrivateIdentity where
  pickleOk : Bool
  ser : Option String
deriving DecidableEq, Repr

/-- A pairwise `Session`.  `ser` is its pickled-and-serialized form. -/
structure Session where
  sender_key : String
  session_id : String
  ser : Option String
deriving DecidableEq, Repr

/-- An `InboundGroupSession` to be saved. -/
structure InboundGroupSession where
  room_id : String
  sender_key : String
  session_id : String
  ser : Option String
deriving DecidableEq, Repr

/-- An `OutboundGroupSession` to be saved. -/
structure OutboundGroupSession where
  room_id : String
  ser : Option String
deriving DecidableEq, Repr

/-- A `ReadOnlyDevice`.  `ser` is its `JsValue::from_serde` form. -/
structure Device where
  user_id : String
  device_id : String
  ser : Option String
deriving DecidableEq, Repr

/-- A `ReadOnlyUserIdentities` record. -/
structure Identity where
  user_id : String
  ser : Option String
deriving DecidableEq, Repr

/-- An `OlmMessageHash`. -/
structure MessageHash where
  sender_key : String
  hash : String
deriving DecidableEq, Repr

/-- A `GossipRequest`.  `infoKey` is `request.info.as_key()`; `ser` is the
`JsValue::from_serde` form of the whole request. -/
structure GossipRequest where
  request_id : String
  infoKey : String
  sent_out : Bool
  ser : Option String
deriving DecidableEq, Repr

/-- The `DeviceChanges` triple. -/
structure DeviceChanges where
  new : List Device
  changed : List Device
  deleted : List Device
deriving DecidableEq, Repr

/-- The `IdentityChanges` pair. -/
structure IdentityChanges where
  new : List Identity
  changed : List Identity
deriving DecidableEq, Repr

/-- The `Changes` batch handed to `save_changes`. -/
structure Changes where
  account : Option Account
  private_identity : Option PrivateIdentity
  sessions : List Session
  message_hashes : List MessageHash
  inbound_group_sessions : List InboundGroupSession
  outbound_group_sessions : List OutboundGroupSession
  key_requests : List GossipRequest
  devices : DeviceChanges
  identities : IdentityChanges
deriving DecidableEq, Repr

/-- The error taxonomy of `CryptoStoreError` restricted to the variants
this file reaches. -/
inductive CryptoStoreError where
  | Serialization
  | StorageEngine
  | AccountUnset
  | Unpickling
deriving DecidableEq, Repr

/-- Observable actions of one `save_changes` run, in program order. -/
inductive Event where
  | openTx (stores : List String)
  | pickle (label : String)
  | put (store : String) (key : String)
  | del (store : String) (key : String)
  | commit
  | cacheAdd (sender_key : String) (session_id : String)
deriving DecidableEq, Repr

/-- The durable partitions created by the schema upgrade. -/
structure DB where
  core : Partition
  session : Partition
  inbound_group_sessions : Partition
  outbound_group_sessions : Partition
  tracked_users : Partition
  olm_hashes : Partition
  devices : Partition
  identities : Partition
  outgoing_secret_requests : Partition
  unsent_secret_requests : Partition
  secret_requests_by_info : Partition
deriving DecidableEq, Repr

/-- The in-memory session cache: per sender key, the cached session list. -/
abbrev SessionCache := List (String × List Session)

/-- The whole `IndexeddbStore` state: durable partitions plus the
in-memory caches (`account_info`, `session_cache`, `tracked_users_cache`,
`users_for_key_query_cache`). -/
structure StoreState where
  db : DB
  accountInfo : Option AccountInfo
  sessionCache : SessionCache
  trackedUsersCache : List String
  usersForKeyQueryCache : List String
deriving DecidableEq, Repr

/-- The `format!` join `a ++ ":" ++ b` — the composite key of sessions, devices and
olm hashes. -/
def compositeKey (a b : String) : String := a ++ ":" ++ b

/-- The session partition key: `sender_key`, a colon, `session_id`. -/
def sessionKey (s : Session) : String := compositeKey s.sender_key s.session_id

/-- The inbound-group-session key
`room_id`, `sender_key` and `session_id` joined by colons. -/
def inboundKey (s : InboundGroupSession) : String :=
  s.room_id ++ ":" ++ s.sender_key ++ ":" ++ s.session_id

/-- The device partition key: `user_id`, a colon, `device_id`. -/
def deviceKey (d : Device) : String := compositeKey d.user_id d.device_id

/-- The olm-hash key: `sender_key`, a colon, `hash`. -/
def olmHashKey (h : MessageHash) : String := compositeKey h.sender_key h.hash

/-- The store names implicated by a `Changes` (lines 227-248): the literal
array of `(condition, store)` pairs filtered, then the three gossip-request
stores appended when any key request is present. -/
def touchedStores (c : Changes) : List String :=
  let base : List (Bool × String) :=
    [(c.account.isSome || c.private_identity.isSome, KEYS.CORE),
     (!c.sessions.isEmpty, KEYS.SESSION),
     (!c.devices.new.isEmpty || !c.devices.changed.isEmpty || !c.devices.deleted.isEmpty,
        KEYS.DEVICES),
     (!c.identities.new.isEmpty || !c.identities.changed.isEmpty, KEYS.IDENTITIES),
     (!c.inbound_group_sessions.isEmpty, KEYS.INBOUND_GROUP_SESSIONS),
     (!c.outbound_group_sessions.isEmpty, KEYS.OUTBOUND_GROUP_SESSIONS),
     (!c.message_hashes.isEmpty, KEYS.OLM_HASHES)]
  let stores := base.filterMap (fun p => if p.1 then some p.2 else none)
  if !c.key_requests.isEmpty then
    stores ++ [KEYS.SECRET_REQUESTS_BY_INFO, KEYS.UNSENT_SECRET_REQUESTS,
               KEYS.OUTGOING_SECRET_REQUESTS]
  else stores

/-- One step of the transaction body: the events it emitted plus either the
updated partitions or the error that aborted the call. -/
abbrev StepResult := List Event × Except CryptoStoreError DB

/-- Sequence two transaction-body steps, accumulating events; an error
short-circuits the rest. -/
def bindStep (r : StepResult) (f : DB → StepResult) : StepResult :=
  match r with
  | (tr, Except.error e) => (tr, Except.error e)
  | (tr, Except.ok db) =>
    match f db with
    | (tr2, r2) => (tr ++ tr2, r2)

/-- The `changes.account.pickle(mode)` step (lines 258-262): pickling an account
never fails. -/
def pickleAccountPhase (acc : Option Account) (db : DB) : StepResult :=
  match acc with
  | none => ([], Except.ok db)
  | some _ => ([Event.pickle KEYS.ACCOUNT], Except.ok db)

/-- The `changes.private_identity.pickle(key).await?` step (lines 264-268): pickling
the private cross-signing identity is fallible. -/
def picklePrivateIdentityPhase (pi : Option PrivateIdentity) (db : DB) : StepResult :=
  match pi with
  | none => ([], Except.ok db)
  | some i =>
    if i.pickleOk then ([Event.pickle KEYS.PRIVATE_IDENTITY], Except.ok db)
    else ([Event.pickle KEYS.PRIVATE_IDENTITY], Except.error CryptoStoreError.Serialization)

/-- Write the account pickle into the core partition (lines 270-273);
`JsValue::from_serde(&a)?` is fallible. -/
def putAccountPhase (acc : Option Account) (db : DB) : StepResult :=
  match acc with
  | none => ([], Except.ok db)
  | some a =>
    match a.ser with
    | none => ([], Except.error CryptoStoreError.Serialization)
    | some v =>
      ([Event.put KEYS.CORE KEYS.ACCOUNT],
       Except.ok { db with core := pput db.core KEYS.ACCOUNT v })

/-- Write the private-identity pickle into the core partition
(lines 275-278). -/
def putPrivateIdentityPhase (pi : Option PrivateIdentity) (db : DB) : StepResult :=
  match pi with
  | none => ([], Except.ok db)
  | some i =>
    match i.ser with
    | none => ([], Except.error CryptoStoreError.Serialization)
    | some v =>
      ([Event.put KEYS.CORE KEYS.PRIVATE_IDENTITY],
       Except.ok { db with core := pput db.core KEYS.PRIVATE_IDENTITY v })

/-- The session write loop (lines 281-293): each session is pickled, then
serialized (fallible), then written under `sender_key:session_id`. -/
def putSessionsPhase : List Session → DB → StepResult
  | [], db => ([], Except.ok db)
  | s :: rest, db =>
    match s.ser with
    | none => ([Event.pickle (sessionKey s)], Except.error CryptoStoreError.Serialization)
    | some v =>
      bindStep
        ([Event.pickle (sessionKey s), Event.put KEYS.SESSION (sessionKey s)],
         Except.ok { db with session := pput db.session (sessionKey s) v })
        (putSessionsPhase rest)

/-- The inbound-group-session write loop (lines 295-307). -/
def putInboundGroupSessionsPhase : List InboundGroupSession → DB → StepResult
  | [], db => ([], Except.ok db)
  | s :: rest, db =>
    match s.ser with
    | none => ([Event.pickle (inboundKey s)], Except.error CryptoStoreError.Serialization)
    | some v =>
      bindStep
        ([Event.pickle (inboundKey s), Event.put KEYS.INBOUND_GROUP_SESSIONS (inboundKey s)],
         Except.ok { db with inbound_group_sessions := pput db.inbound_group_sessions (inboundKey s) v })
        (putInboundGroupSessionsPhase rest)

/-- The outbound-group-session write loop (lines 309-317), keyed by room id. -/
def putOutboundGroupSessionsPhase : List OutboundGroupSession → DB → StepResult
  | [], db => ([], Except.ok db)
  | s :: rest, db =>
    match s.ser with
    | none => ([Event.pickle s.room_id], Except.error CryptoStoreError.Serialization)
    | some v =>
      bindStep
        ([Event.pickle s.room_id, Event.put KEYS.OUTBOUND_GROUP_SESSIONS s.room_id],
         Except.ok { db with outbound_group_sessions := pput db.outbound_group_sessions s.room_id v })
        (putOutboundGroupSessionsPhase rest)

/-- The device upsert loop over `new.iter().chain(&changed)`
(lines 324-332); `JsValue::from_serde(&device)?` is fallible. -/
def putDevicesPhase : List Device → DB → StepResult
  | [], db => ([], Except.ok db)
  | d :: rest, db =>
    match d.ser with
    | none => ([], Except.error CryptoStoreError.Serialization)
    | some v =>
      bindStep
        ([Event.put KEYS.DEVICES (deviceKey d)],
         Except.ok { db with devices := pput db.devices (deviceKey d) v })
        (putDevicesPhase rest)

/-- The device deletion loop (lines 334-341): deletes by composite key,
never fails. -/
def delDevicesPhase (l : List Device) (db : DB) : StepResult :=
  (l.map (fun d => Event.del KEYS.DEVICES (deviceKey d)),
   Except.ok { db with devices := l.foldl (fun p d => pdel p (deviceKey d)) db.devices })

/-- The identity upsert loop over `changed.iter().chain(&new)`
(lines 343-351), keyed by user id. -/
def putIdentitiesPhase : List Identity → DB → StepResult
  | [], db => ([], Except.ok db)
  | i :: rest, db =>
    match i.ser with
    | none => ([], Except.error CryptoStoreError.Serialization)
    | some v =>
      bindStep
        ([Event.put KEYS.IDENTITIES i.user_id],
         Except.ok { db with identities := pput db.identities i.user_id v })
        (putIdentitiesPhase rest)

/-- The message-hash loop (lines 353-361): presence-writes of
`JsValue::TRUE` under `sender_key:hash`, never fails. -/
def putOlmHashesPhase : List MessageHash → DB → StepResult
  | [], db => ([], Except.ok db)
  | h :: rest, db =>
    bindStep
      ([Event.put KEYS.OLM_HASHES (olmHashKey h)],
       Except.ok { db with olm_hashes := pput db.olm_hashes (olmHashKey h) "true" })
      (putOlmHashesPhase rest)

/-- The gossip-request upsert loop (lines 363-388): always upsert
`by_info[info.as_key()] = request_id`; then, depending on `sent_out`,
delete the id from one identifier index and upsert the serialized request
(fallible `JsValue::from_serde(&key_request)?`) into the other. -/
def putGossipRequestsPhase : List GossipRequest → DB → StepResult
  | [], db => ([], Except.ok db)
  | r :: rest, db =>
    let db1 : DB :=
      { db with secret_requests_by_info := pput db.secret_requests_by_info r.infoKey r.request_id }
    if r.sent_out then
      match r.ser with
      | none =>
        ([Event.put KEYS.SECRET_REQUESTS_BY_INFO r.infoKey,
          Event.del KEYS.UNSENT_SECRET_REQUESTS r.request_id],
         Except.error CryptoStoreError.Serialization)
      | some v =>
        bindStep
          ([Event.put KEYS.SECRET_REQUESTS_BY_INFO r.infoKey,
            Event.del KEYS.UNSENT_SECRET_REQUESTS r.request_id,
            Event.put KEYS.OUTGOING_SECRET_REQUESTS r.request_id],
           Except.ok { db1 with
              unsent_secret_requests := pdel db1.unsent_secret_requests r.request_id,
              outgoing_secret_requests := pput db1.outgoing_secret_requests r.request_id v })
          (putGossipRequestsPhase rest)
    else
      match r.ser with
      | none =>
        ([Event.put KEYS.SECRET_REQUESTS_BY_INFO r.infoKey,
          Event.del KEYS.OUTGOING_SECRET_REQUESTS r.request_id],
         Except.error CryptoStoreError.Serialization)
      | some v =>
        bindStep
          ([Event.put KEYS.SECRET_REQUESTS_BY_INFO r.infoKey,
            Event.del KEYS.OUTGOING_SECRET_REQUESTS r.request_id,
            Event.put KEYS.UNSENT_SECRET_REQUESTS r.request_id],
           Except.ok { db1 with
              outgoing_secret_requests := pdel db1.outgoing_secret_requests r.request_id,
              unsent_secret_requests := pput db1.unsent_secret_requests r.request_id v })
          (putGossipRequestsPhase rest)

/-- The body of the `save_changes` transaction (lines 258-388), in program
order. -/
def txBody (c : Changes) (db : DB) : StepResult :=
  bindStep (pickleAccountPhase c.account db) (fun db1 =>
  bindStep (picklePrivateIdentityPhase c.private_identity db1) (fun db2 =>
  bindStep (putAccountPhase c.account db2) (fun db3 =>
  bindStep (putPrivateIdentityPhase c.private_identity db3) (fun db4 =>
  bindStep (putSessionsPhase c.sessions db4) (fun db5 =>
  bindStep (putInboundGroupSessionsPhase c.inbound_group_sessions db5) (fun db6 =>
  bindStep (putOutboundGroupSessionsPhase c.outbound_group_sessions db6) (fun db7 =>
  bindStep (putDevicesPhase (c.devices.new ++ c.devices.changed) db7) (fun db8 =>
  bindStep (delDevicesPhase c.devices.deleted db8) (fun db9 =>
  bindStep (putIdentitiesPhase (c.identities.changed ++ c.identities.new) db9) (fun db10 =>
  bindStep (putOlmHashesPhase c.message_hashes db10) (fun db11 =>
  putGossipRequestsPhase c.key_requests db11)))))))))))

/-- Lookup in the session cache. -/
def cacheGet (c : SessionCache) (k : String) : Option (List Session) :=
  match c with
  | [] => none
  | (k', v) :: rest => if k' = k then some v else cacheGet rest k

/-- Replace the cached session list of one sender key
(`SessionStore::set_for_sender`). -/
def cacheSet (c : SessionCache) (k : String) (v : List Session) : SessionCache :=
  (k, v) :: c.filter (fun e => !(e.1 = k : Bool))

/-- Modelled from the spec: `SessionStore::add` (store/caches.rs, not under
src/) merges one session into the per-sender cached collection, appending
it unless an equal session is already cached. -/
def cacheAddOne (c : SessionCache) (s : Session) : SessionCache :=
  match cacheGet c s.sender_key with
  | some l => cacheSet c s.sender_key (if l.contains s then l else l ++ [s])
  | none => cacheSet c s.sender_key [s]

/-- Embeds `save_changes` (lines 226-398).  Computes the touched stores; an empty
set short-circuits with success.  Otherwise the transaction body runs; on
a serialization error the transaction aborts (durable state and caches
unchanged).  `commitOk` is the outcome of `tx.await.into_result()`; only
after a successful commit are the written sessions merged into the
session cache. -/
def saveChanges (c : Changes) (commitOk : Bool) (st : StoreState) :
    List Event × StoreState × Option CryptoStoreError :=
  let stores := touchedStores c
  if stores.length = 0 then ([], st, none)
  else
    match txBody c st.db with
    | (tr, Except.error e) => (Event.openTx stores :: tr, st, some e)
    | (tr, Except.ok db2) =>
      if commitOk then
        (Event.openTx stores :: tr ++ Event.commit ::
           c.sessions.map (fun s => Event.cacheAdd s.sender_key s.session_id),
         { st with db := db2, sessionCache := c.sessions.foldl cacheAddOne st.sessionCache },
         none)
      else (Event.openTx stores :: tr, st, some CryptoStoreError.StorageEngine)

/-- Strict lexicographic order on key characters, compared by character
code, as IndexedDB orders string keys. -/
def lexLt : List Char → List Char → Bool
  | _, [] => false
  | [], _ :: _ => true
  | a :: as, b :: bs =>
    if a.toNat < b.toNat then true
    else if a.toNat = b.toNat then lexLt as bs
    else false

/-- Non-strict lexicographic order on key characters. -/
def lexLe : List Char → List Char → Bool
  | [], _ => true
  | _ :: _, [] => false
  | a :: as, b :: bs =>
    if a.toNat < b.toNat then true
    else if a.toNat = b.toNat then lexLe as bs
    else false

/-- Embeds `make_range` (lines 102-114): the pair handed to
`IdbKeyRange::bound(key + ":", key + ";")`. -/
def makeRange (key : String) : String × String :=
  (key ++ ":", key ++ ";")

/-- Membership in an `IdbKeyRange::bound(lo, hi)` range: both endpoints are
inclusive (the `lowerOpen`/`upperOpen` flags default to false). -/
def inRange (range : String × String) (k : String) : Bool :=
  lexLe range.1.data k.data && lexLe k.data range.2.data

/-- Embeds `get_all_with_key(&range)`: the entries of a partition whose keys fall
in the range. -/
def rangeScanEntries (p : Partition) (range : String × String) : Partition :=
  p.filter (fun e => inRange range e.1)

/-- The values of the in-range entries. -/
def rangeScanValues (p : Partition) (range : String × String) : List String :=
  (rangeScanEntries p range).map (fun e => e.2)

/-- Split a character list at every `|`, the field separator of the
modelled blob encodings. -/
def splitFields : List Char → List (List Char)
  | [] => [[]]
  | c :: rest =>
    match splitFields rest with
    | [] => [[]]
    | f :: fs => if c = '|' then [] :: f :: fs else (c :: f) :: fs

/-- Modelled from the spec: `f.into_serde()` plus `Session::from_pickle`
(the `Session` type and its unpickling live outside src/); a stored blob
reconstructs into a `Session` against the cached account info exactly when
it has the well-formed shape `"sess|<sender_key>|<session_id>|<data>"`,
and any other (legacy or corrupt) blob fails to decode. -/
def decodeSession (info : AccountInfo) (v : String) : Option Session :=
  match info, splitFields v.data with
  | _, [t, sk, sid, _d] =>
    if t = "sess".data then
      some { sender_key := String.mk sk, session_id := String.mk sid, ser := some v }
    else none
  | _, _ => none

/-- Modelled from the spec: `pickle.into_serde()` plus
`ReadOnlyAccount::from_pickle` (outside src/); a stored account blob
decodes to its `(user id, device id, identity keys)` triple exactly when
it has the shape `"acct|<user_id>|<device_id>|<identity_keys>"`. -/
def decodeAccount (v : String) : Option AccountInfo :=
  match splitFields v.data with
  | [t, u, d, ks] =>
    if t = "acct".data then
      some { user_id := String.mk u, device_id := String.mk d, identity_keys := String.mk ks }
    else none
  | _ => none

/-- Modelled from the spec: `i.into_serde::<GossipRequest>()` (the
`GossipRequest` struct lives outside src/); a stored blob decodes exactly
when it has the shape `"req|<request_id>|<info_key>|<T or F>"`. -/
def decodeGossip (v : String) : Option GossipRequest :=
  match splitFields v.data with
  | [t, id, ik, flag] =>
    if t = "req".data then
      some { request_id := String.mk id, infoKey := String.mk ik,
             sent_out := flag = "T".data, ser := some v }
    else none
  | _ => none

/-- Modelled from the spec: `UserId::try_from` (ruma, outside src/); a
stored tracked-user key parses as a user id exactly when it starts with
`@`. -/
def parseUserId (s : String) : Option String :=
  match s.data with
  | c :: _ => if c = '@' then some s else none
  | [] => none

/-- Embeds `DashSet::contains`. -/
def containsSet (s : List String) (u : String) : Bool :=
  decide (u ∈ s)

/-- Embeds `DashSet::insert`: inserts and reports whether the value was newly
inserted (the set part; the Bool result is taken where the caller uses
it). -/
def insertSet (s : List String) (u : String) : List String :=
  if containsSet s u then s else u :: s

/-- Embeds `DashSet::remove` (the set part). -/
def removeSet (s : List String) (u : String) : List String :=
  s.filter (fun x => !(x = u : Bool))

/-- Embeds `get_sessions` (lines 540-568): requires the `AccountInfo` singleton;
on a cache miss, scans the session partition over `make_range(sender_key)`,
keeps the entries that deserialize and unpickle (dropping the rest), and
caches the resulting list for that sender key. -/
def getSessions (st : StoreState) (sender_key : String) :
    StoreState × Except CryptoStoreError (Option (List Session)) :=
  match st.accountInfo with
  | none => (st, Except.error CryptoStoreError.AccountUnset)
  | some info =>
    match cacheGet st.sessionCache sender_key with
    | some l => (st, Except.ok (some l))
    | none =>
      let sessions :=
        (rangeScanValues st.db.session (makeRange sender_key)).filterMap (decodeSession info)
      let cache2 := cacheSet st.sessionCache sender_key sessions
      ({ st with sessionCache := cache2 }, Except.ok (cacheGet cache2 sender_key))

/-- Embeds `update_tracked_user` (lines 665-686): inserts into the in-memory
tracked set (recording `DashSet::insert`'s result, true iff the user was
newly inserted), adds or removes the user from the needs-key-query set by
`dirty`, then persists the dirty flag in its own transaction and returns
the recorded Bool. -/
def updateTrackedUser (st : StoreState) (user : String) (dirty : Bool) (commitOk : Bool) :
    StoreState × Except CryptoStoreError Bool :=
  let already_added := !containsSet st.trackedUsersCache user
  let tracked := insertSet st.trackedUsersCache user
  let ufkq :=
    if dirty then insertSet st.usersForKeyQueryCache user
    else removeSet st.usersForKeyQueryCache user
  let st1 := { st with trackedUsersCache := tracked, usersForKeyQueryCache := ufkq }
  if commitOk then
    ({ st1 with db := { st1.db with tracked_users := pput st1.db.tracked_users user (if dirty then "true" else "false") } },
     Except.ok already_added)
  else (st1, Except.error CryptoStoreError.StorageEngine)

/-- One iteration of the `load_tracked_users` loop (lines 409-423): a
stored value that is not the literal `false` counts as dirty, and keys
that do not parse as user ids are skipped. -/
def trackedUserStep (s : StoreState) (e : String × String) : StoreState :=
  let dirty := !(e.2 = "false" : Bool)
  match parseUserId e.1 with
  | none => s
  | some u =>
    let s1 := { s with trackedUsersCache := insertSet s.trackedUsersCache u }
    if dirty then { s1 with usersForKeyQueryCache := insertSet s1.usersForKeyQueryCache u }
    else s1

/-- Embeds `load_tracked_users` (lines 401-426): rebuilds both in-memory sets from
the tracked-user partition. -/
def loadTrackedUsers (st : StoreState) : StoreState :=
  st.db.tracked_users.foldl trackedUserStep st

/-- Embeds `load_account` (lines 476-501): reads the account singleton from the
core partition; when present, loads the tracked users, decodes the pickle
(fallible), and only on success publishes the `AccountInfo` singleton. -/
def loadAccount (st : StoreState) :
    StoreState × Except CryptoStoreError (Option AccountInfo) :=
  match pget st.db.core KEYS.ACCOUNT with
  | none => (st, Except.ok none)
  | some v =>
    let st1 := loadTrackedUsers st
    match decodeAccount v with
    | none => (st1, Except.error CryptoStoreError.Serialization)
    | some info => ({ st1 with accountInfo := some info }, Except.ok (some info))

/-- The `AccountInfo` extracted from an account (lines 504-508). -/
def accountInfoOf (a : Account) : AccountInfo :=
  { user_id := a.user_id, device_id := a.device_id, identity_keys := a.identity_keys }

/-- Embeds `save_account` (lines 503-515): publishes the `AccountInfo` singleton
first, then persists the account through `save_changes`. -/
def saveAccount (st : StoreState) (a : Account) (commitOk : Bool) :
    List Event × StoreState × Option CryptoStoreError :=
  let st1 := { st with accountInfo := some (accountInfoOf a) }
  saveChanges
    { account := some a, private_identity := none, sessions := [], message_hashes := [],
      inbound_group_sessions := [], outbound_group_sessions := [], key_requests := [],
      devices := { new := [], changed := [], deleted := [] },
      identities := { new := [], changed := [] } }
    commitOk st1

/-- Embeds `get_outgoing_key_request_helper` (lines 450-471): resolve a request id
against the sent (outgoing) index first, falling back to the unsent index;
a present record that fails to decode is an error (strict point read). -/
def getOutgoingKeyRequestHelper (db : DB) (key : String) :
    Except CryptoStoreError (Option GossipRequest) :=
  match pget db.outgoing_secret_requests key with
  | some v =>
    match decodeGossip v with
    | none => Except.error CryptoStoreError.Serialization
    | some r => Except.ok (some r)
  | none =>
    match pget db.unsent_secret_requests key with
    | some v =>
      match decodeGossip v with
      | none => Except.error CryptoStoreError.Serialization
      | some r => Except.ok (some r)
    | none => Except.ok none

/-- Embeds `get_secret_request_by_info` (lines 754-771): resolve the descriptor to
an id through the by-descriptor index, then look the id up; an absent
descriptor yields no result. -/
def getSecretRequestByInfo (db : DB) (infoKey : String) :
    Except CryptoStoreError (Option GossipRequest) :=
  match pget db.secret_requests_by_info infoKey with
  | some id => getOutgoingKeyRequestHelper db id
  | none => Except.ok none

/-- Embeds `delete_outgoing_secret_requests` (lines 786-817): resolve the record
(sent index preferred, then unsent; decode failures are errors); when one
was found, delete its by-descriptor entry; then unconditionally delete the
id from both identifier indexes and commit. -/
def deleteOutgoingSecretRequests (st : StoreState) (id : String) (commitOk : Bool) :
    StoreState × Option CryptoStoreError :=
  let resolved : Except CryptoStoreError (Option GossipRequest) :=
    match pget st.db.outgoing_secret_requests id with
    | some v =>
      match decodeGossip v with
      | none => Except.error CryptoStoreError.Serialization
      | some r => Except.ok (some r)
    | none =>
      match pget st.db.unsent_secret_requests id with
      | some v =>
        match decodeGossip v with
        | none => Except.error CryptoStoreError.Serialization
        | some r => Except.ok (some r)
      | none => Except.ok none
  match resolved with
  | Except.error e => (st, some e)
  | Except.ok found =>
    let db1 :=
      match found with
      | some r => { st.db with secret_requests_by_info := pdel st.db.secret_requests_by_info r.infoKey }
      | none => st.db
    let db2 := { db1 with unsent_secret_requests := pdel db1.unsent_secret_requests id }
    let db3 := { db2 with outgoing_secret_requests := pdel db2.outgoing_secret_requests id }
    if commitOk then ({ st with db := db3 }, none)
    else (st, some CryptoStoreError.StorageEngine)

/-- Whether an event is an ordinary in-transaction action (anything but a
commit or a cache merge). -/
def Event.plain : Event → Bool
  | Event.commit => false
  | Event.cacheAdd _ _ => false
  | _ => true

/-- Whether a trace performs no cache merge before its first commit. -/
def noCacheBeforeCommit : List Event → Bool
  | [] => true
  | e :: rest =>
    match e with
    | Event.commit => true
    | Event.cacheAdd _ _ => false
    | _ => noCacheBeforeCommit rest

/-- A store with all partitions empty. -/
def emptyDB : DB :=
  { core := [], session := [], inbound_group_sessions := [], outbound_group_sessions := [],
    tracked_users := [], olm_hashes := [], devices := [], identities := [],
    outgoing_secret_requests := [], unsent_secret_requests := [], secret_requests_by_info := [] }

/-- The `Changes::default()` value: nothing set. -/
def emptyChanges : Changes :=
  { account := none, private_identity := none, sessions := [], message_hashes := [],
    inbound_group_sessions := [], outbound_group_sessions := [], key_requests := [],
    devices := { new := [], changed := [], deleted := [] },
    identities := { new := [], changed := [] } }

/-- A freshly opened store: empty partitions, no account, empty caches. -/
def emptyState : StoreState :=
  { db := emptyDB, accountInfo := none, sessionCache := [],
    trackedUsersCache := [], usersForKeyQueryCache := [] }

/-- A session that serializes fine. -/
def sessGood : Session := { sender_key := "k", session_id := "1", ser := some "sess|k|1|d" }

/-- A session whose serialization fails. -/
def sessBad : Session := { sender_key := "k", session_id := "2", ser := none }

/-- A change set with one good session followed by one that fails to
serialize. -/
def changesBadSession : Changes := { emptyChanges with sessions := [sessGood, sessBad] }

/-- A gossip request marked as sent out. -/
def reqSent : GossipRequest :=
  { request_id := "id1", infoKey := "info1", sent_out := true, ser := some "req|id1|info1|T" }

/-- A store holding one sent gossip request together with its
by-descriptor entry. -/
def stateWithSentRequest : StoreState :=
  { emptyState with
    db := { emptyDB with
            outgoing_secret_requests := [("id1", "req|id1|info1|T")],
            secret_requests_by_info := [("info1", "id1")] } }

/-- An account whose serialization fails. -/
def accountBad : Account :=
  { user_id := "@u:x", device_id := "DEV", identity_keys := "ik", ser := none }

/-- A store whose persisted account blob is corrupt. -/
def stateCorruptAccount : StoreState :=
  { emptyState with db := { emptyDB with core := [("account", "garbage")] } }

/-- The account info of a loaded store. -/
def infoLoaded : AccountInfo := { user_id := "@u:x", device_id := "DEV", identity_keys := "ik" }

/-- A loaded store whose session partition holds one well-formed and one
corrupt entry under sender key `k`. -/
def stateMixedSessions : StoreState :=
  { emptyState with
    accountInfo := some infoLoaded,
    db := { emptyDB with session := [("k:1", "sess|k|1|d"), ("k:2", "garbage")] } }

/-- A device record that serializes fine. -/
def devBoth : Device := { user_id := "@u:x", device_id := "DEV", ser := some "dev" }

/-- A change set naming the same device as changed and as deleted. -/
def changesDeviceBoth : Changes :=
  { emptyChanges with devices := { new := [], changed := [devBoth], deleted := [devBoth] } }

theorem pget_pdel_self (p : Partition) (k : String) : pget (pdel p k) k = none := by
  induction p with
  | nil => rfl
  | cons e rest ih =>
    by_cases h : e.1 = k
    · simpa [pdel, List.filter_cons, h] using ih
    · simpa [pdel, List.filter_cons, h, pget] using ih

theorem pget_pdel_ne (p : Partition) (k' k : String) (h : k' ≠ k) :
    pget (pdel p k') k = pget p k := by
  induction p with
  | nil => rfl
  | cons e rest ih =>
    by_cases he : e.1 = k'
    · simpa [pdel, List.filter_cons, he, pget, h] using ih
    · simp only [pdel, List.filter_cons, he, decide_False]
      by_cases hek : e.1 = k
      · simp [pget, hek]
      · simpa [pget, hek, pdel] using ih

theorem pget_pdel_none (p : Partition) (k' k : String) (h : pget p k = none) :
    pget (pdel p k') k = none := by
  by_cases hk : k' = k
  · rw [hk]; exact pget_pdel_self p k
  · rw [pget_pdel_ne p k' k hk]; exact h

theorem pget_pput_self (p : Partition) (k v : String) : pget (pput p k v) k = some v := by
  simp [pput, pget]

theorem pget_pput_ne (p : Partition) (k' k v : String) (h : k' ≠ k) :
    pget (pput p k' v) k = pget p k := by
  simp [pput, pget, h]
  exact pget_pdel_ne p k' k h

theorem pdel_eq_of_pget_none (p : Partition) (k : String) (h : pget p k = none) :
    pdel p k = p := by
  induction p with
  | nil => rfl
  | cons e rest ih =>
    by_cases he : e.1 = k
    · simp [pget, he] at h
    · simp only [pget, he, if_false] at h
      simp [pdel, List.filter_cons, he] at ih ⊢
      exact ih h

theorem cacheGet_cacheSet_self (c : SessionCache) (k : String) (v : List Session) :
    cacheGet (cacheSet c k v) k = some v := by
  simp [cacheSet, cacheGet]

theorem containsSet_insertSet_self (s : List String) (u : String) :
    containsSet (insertSet s u) u = true := by
  by_cases h : u ∈ s
  · simp [insertSet, containsSet, h]
  · simp [insertSet, containsSet, h]

theorem lexLe_append_left (p a b : List Char) :
    lexLe (p ++ a) (p ++ b) = lexLe a b := by
  induction p with
  | nil => rfl
  | cons c rest ih => simpa [lexLe, Nat.lt_irrefl] using ih

theorem string_data_append (a b : String) : (a ++ b).data = a.data ++ b.data := by
  cases a; cases b; rfl

theorem commit_not_plain : Event.plain Event.commit = false := rfl

theorem not_mem_of_all_plain {l : List Event} (h : l.all Event.plain = true) :
    Event.commit ∉ l := by
  intro hm
  have := List.all_eq_true.mp h _ hm
  simp [Event.plain] at this

theorem cacheAdd_not_mem_of_all_plain {l : List Event} (h : l.all Event.plain = true)
    (sk sid : String) : Event.cacheAdd sk sid ∉ l := by
  intro hm
  have := List.all_eq_true.mp h _ hm
  simp [Event.plain] at this

theorem noCacheBeforeCommit_of_all_plain {l : List Event} (h : l.all Event.plain = true) :
    noCacheBeforeCommit l = true := by
  induction l with
  | nil => rfl
  | cons e rest ih =>
    rw [List.all_cons, Bool.and_eq_true] at h
    cases e with
    | commit => simp [Event.plain] at h
    | cacheAdd sk sid => simp [Event.plain] at h
    | openTx s => simpa [noCacheBeforeCommit] using ih h.2
    | pickle s => simpa [noCacheBeforeCommit] using ih h.2
    | put a b => simpa [noCacheBeforeCommit] using ih h.2
    | del a b => simpa [noCacheBeforeCommit] using ih h.2

theorem noCacheBeforeCommit_append_commit {l : List Event} (rest : List Event)
    (h : l.all Event.plain = true) :
    noCacheBeforeCommit (l ++ Event.commit :: rest) = true := by
  induction l with
  | nil => rfl
  | cons e l2 ih =>
    rw [List.all_cons, Bool.and_eq_true] at h
    cases e with
    | commit => simp [Event.plain] at h
    | cacheAdd sk sid => simp [Event.plain] at h
    | openTx s => simpa [noCacheBeforeCommit] using ih h.2
    | pickle s => simpa [noCacheBeforeCommit] using ih h.2
    | put a b => simpa [noCacheBeforeCommit] using ih h.2
    | del a b => simpa [noCacheBeforeCommit] using ih h.2

theorem bindStep_all_plain {r : StepResult} {f : DB → StepResult}
    (h1 : r.1.all Event.plain = true) (h2 : ∀ db, ((f db).1).all Event.plain = true) :
    ((bindStep r f).1).all Event.plain = true := by
  rcases r with ⟨tr, res⟩
  cases res with
  | error e => simpa [bindStep] using h1
  | ok db =>
    rcases hf : f db with ⟨tr2, r2⟩
    have h2' := h2 db
    rw [hf] at h2'
    simp only [bindStep, hf]
    simp only at h1
    simp [List.all_append, h1, h2']

theorem bindStep_ok_split {r : StepResult} {f : DB → StepResult} {db2 : DB}
    (h : (bindStep r f).2 = Except.ok db2) :
    ∃ db1, r.2 = Except.ok db1 ∧ (f db1).2 = Except.ok db2 := by
  rcases r with ⟨tr, res⟩
  cases res with
  | error e => simp [bindStep] at h
  | ok db1 =>
    rcases hf : f db1 with ⟨tr2, r2⟩
    refine ⟨db1, rfl, ?_⟩
    rw [hf]
    simpa [bindStep, hf] using h

theorem pickleAccountPhase_plain (acc : Option Account) (db : DB) :
    ((pickleAccountPhase acc db).1).all Event.plain = true := by
  cases acc <;> simp [pickleAccountPhase, Event.plain]

theorem picklePrivateIdentityPhase_plain (pi : Option PrivateIdentity) (db : DB) :
    ((picklePrivateIdentityPhase pi db).1).all Event.plain = true := by
  cases pi with
  | none => rfl
  | some i =>
    by_cases h : i.pickleOk <;> simp [picklePrivateIdentityPhase, h, Event.plain]

theorem putAccountPhase_plain (acc : Option Account) (db : DB) :
    ((putAccountPhase acc db).1).all Event.plain = true := by
  cases acc with
  | none => rfl
  | some a => cases hs : a.ser <;> simp [putAccountPhase, hs, Event.plain]

theorem putPrivateIdentityPhase_plain (pi : Option PrivateIdentity) (db : DB) :
    ((putPrivateIdentityPhase pi db).1).all Event.plain = true := by
  cases pi with
  | none => rfl
  | some i => cases hs : i.ser <;> simp [putPrivateIdentityPhase, hs, Event.plain]

theorem putSessionsPhase_plain (l : List Session) :
    ∀ db, ((putSessionsPhase l db).1).all Event.plain = true := by
  induction l with
  | nil => intro db; rfl
  | cons s rest ih =>
    intro db
    cases hs : s.ser with
    | none => simp [putSessionsPhase, hs, Event.plain]
    | some v =>
      simp only [putSessionsPhase, hs]
      exact bindStep_all_plain (by simp [Event.plain]) ih

theorem putInboundGroupSessionsPhase_plain (l : List InboundGroupSession) :
    ∀ db, ((putInboundGroupSessionsPhase l db).1).all Event.plain = true := by
  induction l with
  | nil => intro db; rfl
  | cons s rest ih =>
    intro db
    cases hs : s.ser with
    | none => simp [putInboundGroupSessionsPhase, hs, Event.plain]
    | some v =>
      simp only [putInboundGroupSessionsPhase, hs]
      exact bindStep_all_plain (by simp [Event.plain]) ih

theorem putOutboundGroupSessionsPhase_plain (l : List OutboundGroupSession) :
    ∀ db, ((putOutboundGroupSessionsPhase l db).1).all Event.plain = true := by
  induction l with
  | nil => intro db; rfl
  | cons s rest ih =>
    intro db
    cases hs : s.ser with
    | none => simp [putOutboundGroupSessionsPhase, hs, Event.plain]
    | some v =>
      simp only [putOutboundGroupSessionsPhase, hs]
      exact bindStep_all_plain (by simp [Event.plain]) ih

theorem putDevicesPhase_plain (l : List Device) :
    ∀ db, ((putDevicesPhase l db).1).all Event.plain = true := by
  induction l with
  | nil => intro db; rfl
  | cons d rest ih =>
    intro db
    cases hs : d.ser with
    | none => simp [putDevicesPhase, hs]
    | some v =>
      simp only [putDevicesPhase, hs]
      exact bindStep_all_plain (by simp [Event.plain]) ih

theorem delDevicesPhase_plain (l : List Device) (db : DB) :
    ((delDevicesPhase l db).1).all Event.plain = true := by
  simp only [delDevicesPhase]
  rw [List.all_eq_true]
  intro e he
  obtain ⟨d, _, rfl⟩ := List.mem_map.mp he
  rfl

theorem putIdentitiesPhase_plain (l : List Identity) :
    ∀ db, ((putIdentitiesPhase l db).1).all Event.plain = true := by
  induction l with
  | nil => intro db; rfl
  | cons i rest ih =>
    intro db
    cases hs : i.ser with
    | none => simp [putIdentitiesPhase, hs]
    | some v =>
      simp only [putIdentitiesPhase, hs]
      exact bindStep_all_plain (by simp [Event.plain]) ih

theorem putOlmHashesPhase_plain (l : List MessageHash) :
    ∀ db, ((putOlmHashesPhase l db).1).all Event.plain = true := by
  induction l with
  | nil => intro db; rfl
  | cons h rest ih =>
    intro db
    simp only [putOlmHashesPhase]
    exact bindStep_all_plain (by simp [Event.plain]) ih

theorem putGossipRequestsPhase_plain (l : List GossipRequest) :
    ∀ db, ((putGossipRequestsPhase l db).1).all Event.plain = true := by
  induction l with
  | nil => intro db; rfl
  | cons r rest ih =>
    intro db
    by_cases ho : r.sent_out <;>
      cases hs : r.ser <;>
        simp only [putGossipRequestsPhase, ho, hs, Bool.false_eq_true, reduceIte] <;>
        first
          | exact bindStep_all_plain (by simp [Event.plain]) ih
          | simp [Event.plain]

theorem txBody_plain (c : Changes) (db : DB) :
    ((txBody c db).1).all Event.plain = true := by
  unfold txBody
  exact bindStep_all_plain (pickleAccountPhase_plain _ _) (fun db1 =>
    bindStep_all_plain (picklePrivateIdentityPhase_plain _ _) (fun db2 =>
    bindStep_all_plain (putAccountPhase_plain _ _) (fun db3 =>
    bindStep_all_plain (putPrivateIdentityPhase_plain _ _) (fun db4 =>
    bindStep_all_plain (putSessionsPhase_plain _ _) (fun db5 =>
    bindStep_all_plain (putInboundGroupSessionsPhase_plain _ _) (fun db6 =>
    bindStep_all_plain (putOutboundGroupSessionsPhase_plain _ _) (fun db7 =>
    bindStep_all_plain (putDevicesPhase_plain _ _) (fun db8 =>
    bindStep_all_plain (delDevicesPhase_plain _ _) (fun db9 =>
    bindStep_all_plain (putIdentitiesPhase_plain _ _) (fun db10 =>
    bindStep_all_plain (putOlmHashesPhase_plain _ _) (fun db11 =>
    putGossipRequestsPhase_plain _ _)))))))))))

theorem putIdentitiesPhase_devices (l : List Identity) :
    ∀ db db2, (putIdentitiesPhase l db).2 = Except.ok db2 → db2.devices = db.devices := by
  induction l with
  | nil =>
    intro db db2 h
    simp only [putIdentitiesPhase] at h
    cases h
    rfl
  | cons i rest ih =>
    intro db db2 h
    cases hs : i.ser with
    | none => simp [putIdentitiesPhase, hs] at h
    | some v =>
      simp only [putIdentitiesPhase, hs] at h
      obtain ⟨db1, h1, h2⟩ := bindStep_ok_split h
      cases h1
      exact (ih _ _ h2).trans rfl

theorem putOlmHashesPhase_devices (l : List MessageHash) :
    ∀ db db2, (putOlmHashesPhase l db).2 = Except.ok db2 → db2.devices = db.devices := by
  induction l with
  | nil =>
    intro db db2 h
    simp only [putOlmHashesPhase] at h
    cases h
    rfl
  | cons x rest ih =>
    intro db db2 h
    simp only [putOlmHashesPhase] at h
    obtain ⟨db1, h1, h2⟩ := bindStep_ok_split h
    cases h1
    exact (ih _ _ h2).trans rfl

theorem putGossipRequestsPhase_devices (l : List GossipRequest) :
    ∀ db db2, (putGossipRequestsPhase l db).2 = Except.ok db2 → db2.devices = db.devices := by
  induction l with
  | nil =>
    intro db db2 h
    simp only [putGossipRequestsPhase] at h
    cases h
    rfl
  | cons r rest ih =>
    intro db db2 h
    by_cases ho : r.sent_out <;> cases hs : r.ser with
    | _ =>
      simp only [putGossipRequestsPhase, ho, hs, Bool.false_eq_true, reduceIte] at h
      first
        | exact absurd h (by simp)
        | (obtain ⟨db1, h1, h2⟩ := bindStep_ok_split h
           cases h1
           exact (ih _ _ h2).trans rfl)

theorem pget_foldl_pdel_none (l : List Device) :
    ∀ (p : Partition) (k : String), pget p k = none →
      pget (l.foldl (fun q d => pdel q (deviceKey d)) p) k = none := by
  induction l with
  | nil => intro p k h; exact h
  | cons d rest ih =>
    intro p k h
    exact ih _ _ (pget_pdel_none p (deviceKey d) k h)

theorem pget_foldl_pdel_mem (l : List Device) :
    ∀ (p : Partition) (d : Device), d ∈ l →
      pget (l.foldl (fun q d2 => pdel q (deviceKey d2)) p) (deviceKey d) = none := by
  induction l with
  | nil => intro p d h; cases h
  | cons e rest ih =>
    intro p d h
    rcases List.mem_cons.mp h with he | hr
    · subst he
      exact pget_foldl_pdel_none rest _ _ (pget_pdel_self p (deviceKey d))
    · exact ih _ _ hr

theorem devices_mem_touchedStores (c : Changes) (h : c.devices.deleted ≠ []) :
    KEYS.DEVICES ∈ touchedStores c := by
  have hb : (!c.devices.new.isEmpty || !c.devices.changed.isEmpty || !c.devices.deleted.isEmpty) = true := by
    cases hd : c.devices.deleted with
    | nil => exact absurd hd h
    | cons a l => simp [hd]
  have hmem : KEYS.DEVICES ∈
      ([(c.account.isSome || c.private_identity.isSome, KEYS.CORE),
        (!c.sessions.isEmpty, KEYS.SESSION),
        (!c.devices.new.isEmpty || !c.devices.changed.isEmpty || !c.devices.deleted.isEmpty,
          KEYS.DEVICES),
        (!c.identities.new.isEmpty || !c.identities.changed.isEmpty, KEYS.IDENTITIES),
        (!c.inbound_group_sessions.isEmpty, KEYS.INBOUND_GROUP_SESSIONS),
        (!c.outbound_group_sessions.isEmpty, KEYS.OUTBOUND_GROUP_SESSIONS),
        (!c.message_hashes.isEmpty, KEYS.OLM_HASHES)] :
        List (Bool × String)).filterMap (fun p => if p.1 then some p.2 else none) := by
    apply List.mem_filterMap.mpr
    refine ⟨(!c.devices.new.isEmpty || !c.devices.changed.isEmpty || !c.devices.deleted.isEmpty,
      KEYS.DEVICES), ?_, ?_⟩
    · simp
    · simp [hb]
  by_cases hk : !c.key_requests.isEmpty
  · simp only [touchedStores, hk, reduceIte]
    exact List.mem_append_left _ hmem
  · simp only [touchedStores, hk, Bool.false_eq_true, reduceIte]
    exact hmem

theorem touchedStores_length_ne_zero {c : Changes} {k : String}
    (h : k ∈ touchedStores c) : ¬(touchedStores c).length = 0 := by
  intro h0
  rw [List.length_eq_zero] at h0
  rw [h0] at h
  cases h

theorem saveChanges_ok_split (c : Changes) (commitOk : Bool) (st : StoreState)
    (h : (saveChanges c commitOk st).2.2 = none) :
    ((touchedStores c).length = 0 ∧ (saveChanges c commitOk st).2.1 = st) ∨
    ∃ db2, (txBody c st.db).2 = Except.ok db2 ∧ commitOk = true ∧
      (saveChanges c commitOk st).2.1 =
        { st with db := db2, sessionCache := c.sessions.foldl cacheAddOne st.sessionCache } := by
  by_cases h0 : (touchedStores c).length = 0
  · left
    exact ⟨h0, by simp [saveChanges, h0]⟩
  · right
    rcases htx : txBody c st.db with ⟨tr, res⟩
    cases res with
    | error e => exfalso; simp [saveChanges, h0, htx] at h
    | ok db2 =>
      cases commitOk with
      | false => exfalso; simp [saveChanges, h0, htx] at h
      | true => exact ⟨db2, rfl, rfl, by simp [saveChanges, h0, htx]⟩

theorem saveChanges_error_split (c : Changes) (commitOk : Bool) (st : StoreState)
    (e : CryptoStoreError) (h : (saveChanges c commitOk st).2.2 = some e) :
    (saveChanges c commitOk st).2.1 = st ∧
    (saveChanges c commitOk st).1 = Event.openTx (touchedStores c) :: (txBody c st.db).1 := by
  by_cases h0 : (touchedStores c).length = 0
  · exfalso; simp [saveChanges, h0] at h
  · rcases htx : txBody c st.db with ⟨tr, res⟩
    cases res with
    | error e2 => constructor <;> simp [saveChanges, h0, htx]
    | ok db2 =>
      cases commitOk with
      | true => exfalso; simp [saveChanges, h0, htx] at h
      | false => constructor <;> simp [saveChanges, h0, htx]

/-- C5: for every `ChangeSet` in which every category is empty (no account,
no private identity, no sessions, no device changes, no identity changes,
no group sessions, no message hashes, no key requests), `save_changes`
returns success without opening any transaction (empty event trace) and
without touching any partition (the store state is returned unchanged). -/
theorem save_changes_empty_changes_noop (c : Changes) (commitOk : Bool) (st : StoreState)
    (hacc : c.account = none) (hpi : c.private_identity = none) (hs : c.sessions = [])
    (hdn : c.devices.new = []) (hdc : c.devices.changed = []) (hdd : c.devices.deleted = [])
    (hin : c.identities.new = []) (hic : c.identities.changed = [])
    (hig : c.inbound_group_sessions = []) (hog : c.outbound_group_sessions = [])
    (hmh : c.message_hashes = []) (hkr : c.key_requests = []) :
    saveChanges c commitOk st = ([], st, none) := by
  obtain ⟨acc, pi, sess, mh, igs, ogs, kr, devs, ids⟩ := c
  obtain ⟨dn, dc, dd⟩ := devs
  obtain ⟨idn, idc⟩ := ids
  simp only at hacc hpi hs hdn hdc hdd hin hic hig hog hmh hkr
  subst hacc hpi hs hdn hdc hdd hin hic hig hog hmh hkr
  rfl

/-- Witness for C5: the default (all-empty) change set against a fresh
store is a no-op. -/
theorem save_changes_empty_changes_noop_witness :
    saveChanges emptyChanges true emptyState = ([], emptyState, none) :=
  save_changes_empty_changes_noop emptyChanges true emptyState
    rfl rfl rfl rfl rfl rfl rfl rfl rfl rfl rfl rfl

/-- C1 counterexample: a change set with two sessions, the second of which
fails to serialize.  `save_changes` fails with a serialization error, yet
the write of the first session was already attempted against the session
partition, and the transaction was opened as the very first action, before
any payload was pickled — refuting the claim that every payload is
serialized-and-encrypted before the transaction is entered so that such a
failure surfaces before any write is attempted. -/
theorem save_changes_write_precedes_failed_serialization :
    (saveChanges changesBadSession true emptyState).2.2 = some CryptoStoreError.Serialization ∧
    Event.put KEYS.SESSION (sessionKey sessGood) ∈ (saveChanges changesBadSession true emptyState).1 ∧
    ((saveChanges changesBadSession true emptyState).1).head? =
      some (Event.openTx [KEYS.SESSION]) := by
  exact ⟨rfl, by decide, rfl⟩

/-- C1 (amended): payloads are serialized-and-encrypted inside the
transaction, after it is entered (the opening of the transaction is the
first event of every failing run), interleaved with the writes; a
serialization or encryption failure may therefore come after earlier
writes were issued, but it always surfaces before the commit: a failing
`save_changes` never commits and leaves the observable store state
unchanged. -/
theorem save_changes_failure_aborts_uncommitted (c : Changes) (commitOk : Bool)
    (st : StoreState) (e : CryptoStoreError)
    (h : (saveChanges c commitOk st).2.2 = some e) :
    Event.commit ∉ (saveChanges c commitOk st).1 ∧
    (saveChanges c commitOk st).2.1 = st ∧
    ((saveChanges c commitOk st).1).head? = some (Event.openTx (touchedStores c)) := by
  obtain ⟨hst, htr⟩ := saveChanges_error_split c commitOk st e h
  refine ⟨?_, hst, by rw [htr]; rfl⟩
  rw [htr]
  intro hm
  rcases List.mem_cons.mp hm with h1 | h2
  · exact Event.noConfusion h1
  · exact not_mem_of_all_plain (txBody_plain c st.db) h2

/-- Witness for C1: the failing two-session change set aborts before any
commit and leaves the store unchanged. -/
theorem save_changes_failure_aborts_uncommitted_witness :
    Event.commit ∉ (saveChanges changesBadSession true emptyState).1 ∧
    (saveChanges changesBadSession true emptyState).2.1 = emptyState ∧
    ((saveChanges changesBadSession true emptyState).1).head? =
      some (Event.openTx (touchedStores changesBadSession)) :=
  save_changes_failure_aborts_uncommitted changesBadSession true emptyState
    CryptoStoreError.Serialization rfl

/-- C6: the sessions of a `ChangeSet` are merged into the in-memory session
cache only after the transaction commit succeeds, never before (no
cache-merge event precedes the commit event in any run), and every failing
`save_changes` — serialization failure or commit failure — leaves the
session cache unchanged and performs no cache merge at all. -/
theorem save_changes_cache_merge_only_after_commit (c : Changes) (commitOk : Bool)
    (st : StoreState) :
    noCacheBeforeCommit (saveChanges c commitOk st).1 = true ∧
    ∀ e, (saveChanges c commitOk st).2.2 = some e →
      ((saveChanges c commitOk st).2.1).sessionCache = st.sessionCache ∧
      ∀ sk sid, Event.cacheAdd sk sid ∉ (saveChanges c commitOk st).1 := by
  by_cases h0 : (touchedStores c).length = 0
  · have heq : saveChanges c commitOk st = ([], st, none) := by simp [saveChanges, h0]
    rw [heq]
    exact ⟨rfl, fun e he => by cases he⟩
  · rcases htx : txBody c st.db with ⟨tr, res⟩
    have hplain : tr.all Event.plain = true := by
      have hp := txBody_plain c st.db
      rw [htx] at hp
      exact hp
    cases res with
    | error e2 =>
      have heq : saveChanges c commitOk st =
          (Event.openTx (touchedStores c) :: tr, st, some e2) := by
        simp [saveChanges, h0, htx]
      rw [heq]
      refine ⟨?_, fun e _ => ⟨rfl, fun sk sid hm => ?_⟩⟩
      · simpa [noCacheBeforeCommit] using noCacheBeforeCommit_of_all_plain hplain
      · rcases List.mem_cons.mp hm with h1 | h2
        · exact Event.noConfusion h1
        · exact cacheAdd_not_mem_of_all_plain hplain sk sid h2
    | ok db2 =>
      cases commitOk with
      | true =>
        have heq : saveChanges c true st =
            (Event.openTx (touchedStores c) :: tr ++ Event.commit ::
               c.sessions.map (fun s => Event.cacheAdd s.sender_key s.session_id),
             { st with db := db2, sessionCache := c.sessions.foldl cacheAddOne st.sessionCache },
             none) := by
          simp [saveChanges, h0, htx]
        rw [heq]
        refine ⟨?_, fun e he => by cases he⟩
        simpa [noCacheBeforeCommit] using
          noCacheBeforeCommit_append_commit
            (c.sessions.map (fun s => Event.cacheAdd s.sender_key s.session_id)) hplain
      | false =>
        have heq : saveChanges c false st =
            (Event.openTx (touchedStores c) :: tr, st, some CryptoStoreError.StorageEngine) := by
          simp [saveChanges, h0, htx]
        rw [heq]
        refine ⟨?_, fun e _ => ⟨rfl, fun sk sid hm => ?_⟩⟩
        · simpa [noCacheBeforeCommit] using noCacheBeforeCommit_of_all_plain hplain
        · rcases List.mem_cons.mp hm with h1 | h2
          · exact Event.noConfusion h1
          · exact cacheAdd_not_mem_of_all_plain hplain sk sid h2

/-- Witness for C6: the failing two-session change set performed no cache
merge and left the session cache unchanged. -/
theorem save_changes_cache_merge_only_after_commit_witness :
    ((saveChanges changesBadSession true emptyState).2.1).sessionCache =
      emptyState.sessionCache ∧
    ∀ sk sid, Event.cacheAdd sk sid ∉ (saveChanges changesBadSession true emptyState).1 :=
  (save_changes_cache_merge_only_after_commit changesBadSession true emptyState).2
    CryptoStoreError.Serialization rfl

/-- C2 counterexample: for a fresh store and a user `u` that is not yet
tracked, `update_tracked_user(u, false)` does not return "whether u was
already present" (which would be `false` here): it returns `true`, the
result of `DashSet::insert` (true iff newly inserted), as the store's own
test expects. -/
theorem update_tracked_user_first_call_counterexample :
    (updateTrackedUser emptyState "u" false true).2 ≠
      Except.ok (containsSet emptyState.trackedUsersCache "u") ∧
    containsSet emptyState.trackedUsersCache "u" = false := by
  refine ⟨?_, rfl⟩
  intro h
  injection h with h2
  cases h2

/-- C2 (amended): `update_tracked_user(u, dirty)` adds `u` to the tracked
set and returns whether `u` was newly added, i.e. the negation of "already
present": the first call for a new `u` returns `true` and the second call
for the same `u` returns `false`. -/
theorem update_tracked_user_returns_newly_added (st : StoreState) (u : String) (d d2 : Bool) :
    (updateTrackedUser st u d true).2 = Except.ok (!containsSet st.trackedUsersCache u) ∧
    containsSet ((updateTrackedUser st u d true).1).trackedUsersCache u = true ∧
    (updateTrackedUser ((updateTrackedUser st u d true).1) u d2 true).2 = Except.ok false := by
  refine ⟨rfl, ?_, ?_⟩
  · show containsSet (insertSet st.trackedUsersCache u) u = true
    exact containsSet_insertSet_self _ _
  · show Except.ok (!containsSet (insertSet st.trackedUsersCache u) u) = Except.ok false
    rw [containsSet_insertSet_self]
    rfl

/-- C3: after the upsert performed by `save_changes` for a gossip request
`r` with flag `sent_out`, `r`'s id is present in exactly one of the unsent
and sent identifier indexes — the sent (outgoing) one iff `sent_out`, with
the id deleted from the other index — and the by-descriptor index maps
`r`'s descriptor to `r`'s id. -/
theorem save_changes_gossip_upsert_exactly_one_index (st : StoreState) (r : GossipRequest)
    (v : String) (hser : r.ser = some v) :
    pget ((saveChanges { emptyChanges with key_requests := [r] } true st).2.1).db.outgoing_secret_requests r.request_id
      = (if r.sent_out then some v else none) ∧
    pget ((saveChanges { emptyChanges with key_requests := [r] } true st).2.1).db.unsent_secret_requests r.request_id
      = (if r.sent_out then none else some v) ∧
    pget ((saveChanges { emptyChanges with key_requests := [r] } true st).2.1).db.secret_requests_by_info r.infoKey
      = some r.request_id ∧
    (saveChanges { emptyChanges with key_requests := [r] } true st).2.2 = none := by
  obtain ⟨rid, rik, rso, rser⟩ := r
  simp only at hser
  subst hser
  cases rso with
  | false =>
    refine ⟨?_, ?_, ?_, rfl⟩
    · show pget (pdel st.db.outgoing_secret_requests rid) rid = none
      exact pget_pdel_self _ _
    · show pget (pput st.db.unsent_secret_requests rid v) rid = some v
      exact pget_pput_self _ _ _
    · show pget (pput st.db.secret_requests_by_info rik rid) rik = some rid
      exact pget_pput_self _ _ _
  | true =>
    refine ⟨?_, ?_, ?_, rfl⟩
    · show pget (pput st.db.outgoing_secret_requests rid v) rid = some v
      exact pget_pput_self _ _ _
    · show pget (pdel st.db.unsent_secret_requests rid) rid = none
      exact pget_pdel_self _ _
    · show pget (pput st.db.secret_requests_by_info rik rid) rik = some rid
      exact pget_pput_self _ _ _

/-- Witness for C3: upserting a sent request places it in the sent index
only, and the descriptor points at its id. -/
theorem save_changes_gossip_upsert_exactly_one_index_witness :
    pget ((saveChanges { emptyChanges with key_requests := [reqSent] } true emptyState).2.1).db.outgoing_secret_requests "id1"
      = some "req|id1|info1|T" ∧
    pget ((saveChanges { emptyChanges with key_requests := [reqSent] } true emptyState).2.1).db.unsent_secret_requests "id1"
      = none ∧
    pget ((saveChanges { emptyChanges with key_requests := [reqSent] } true emptyState).2.1).db.secret_requests_by_info "info1"
      = some "id1" := by
  obtain ⟨h1, h2, h3, _⟩ :=
    save_changes_gossip_upsert_exactly_one_index emptyState reqSent "req|id1|info1|T" rfl
  exact ⟨h1, h2, h3⟩

theorem deleteOutgoingSecretRequests_noop (st : StoreState) (id : String)
    (h1 : pget st.db.outgoing_secret_requests id = none)
    (h2 : pget st.db.unsent_secret_requests id = none) :
    deleteOutgoingSecretRequests st id true = (st, none) := by
  simp only [deleteOutgoingSecretRequests, h1, h2]
  rw [pdel_eq_of_pget_none _ _ h2, pdel_eq_of_pget_none _ _ h1]
  rfl

/-- C4: `delete_outgoing_secret_requests(id)` resolves the existing record
(sent index preferred, then unsent), removes its by-descriptor entry when a
record was found, unconditionally deletes the id from both identifier
indexes, and succeeds even when the id is absent from both; afterwards
lookup by id and lookup by descriptor return nothing, and calling it again
with the same id succeeds and changes nothing. -/
theorem delete_outgoing_secret_requests_idempotent (st : StoreState) (id : String)
    (hout : ∀ v, pget st.db.outgoing_secret_requests id = some v → (decodeGossip v).isSome = true)
    (huns : ∀ v, pget st.db.unsent_secret_requests id = some v → (decodeGossip v).isSome = true) :
    (deleteOutgoingSecretRequests st id true).2 = none ∧
    pget ((deleteOutgoingSecretRequests st id true).1).db.outgoing_secret_requests id = none ∧
    pget ((deleteOutgoingSecretRequests st id true).1).db.unsent_secret_requests id = none ∧
    getOutgoingKeyRequestHelper ((deleteOutgoingSecretRequests st id true).1).db id =
      Except.ok none ∧
    (∀ v r, pget st.db.outgoing_secret_requests id = some v → decodeGossip v = some r →
      pget ((deleteOutgoingSecretRequests st id true).1).db.secret_requests_by_info r.infoKey
        = none) ∧
    (∀ v r, pget st.db.outgoing_secret_requests id = none →
      pget st.db.unsent_secret_requests id = some v → decodeGossip v = some r →
      pget ((deleteOutgoingSecretRequests st id true).1).db.secret_requests_by_info r.infoKey
        = none) ∧
    (∀ dsc,
      pget ((deleteOutgoingSecretRequests st id true).1).db.secret_requests_by_info dsc = some id →
      getSecretRequestByInfo ((deleteOutgoingSecretRequests st id true).1).db dsc =
        Except.ok none) ∧
    deleteOutgoingSecretRequests ((deleteOutgoingSecretRequests st id true).1) id true =
      ((deleteOutgoingSecretRequests st id true).1, none) := by
  cases ho : pget st.db.outgoing_secret_requests id with
  | some v0 =>
    have hd0 : (decodeGossip v0).isSome = true := hout v0 ho
    cases hdec : decodeGossip v0 with
    | none => rw [hdec] at hd0; cases hd0
    | some r0 =>
      have hstate : deleteOutgoingSecretRequests st id true =
          ({ st with db :=
             { st.db with
               secret_requests_by_info := pdel st.db.secret_requests_by_info r0.infoKey,
               unsent_secret_requests := pdel st.db.unsent_secret_requests id,
               outgoing_secret_requests := pdel st.db.outgoing_secret_requests id } }, none) := by
        simp only [deleteOutgoingSecretRequests, ho, hdec]
        rfl
      rw [hstate]
      have h2o : pget (pdel st.db.outgoing_secret_requests id) id = none := pget_pdel_self _ _
      have h2u : pget (pdel st.db.unsent_secret_requests id) id = none := pget_pdel_self _ _
      have h4 : getOutgoingKeyRequestHelper
          { st.db with
            secret_requests_by_info := pdel st.db.secret_requests_by_info r0.infoKey,
            unsent_secret_requests := pdel st.db.unsent_secret_requests id,
            outgoing_secret_requests := pdel st.db.outgoing_secret_requests id } id =
          Except.ok none := by
        simp only [getOutgoingKeyRequestHelper, h2o, h2u]
      refine ⟨rfl, h2o, h2u, h4, ?_, ?_, ?_, ?_⟩
      · intro v r hv hr
        obtain rfl : v0 = v := Option.some.inj hv
        obtain rfl : r0 = r := Option.some.inj (hdec.symm.trans hr)
        exact pget_pdel_self _ _
      · intro v r hno _ _
        exact Option.noConfusion hno
      · intro dsc hdsc
        simp only [getSecretRequestByInfo, hdsc]
        exact h4
      · exact deleteOutgoingSecretRequests_noop _ _ h2o h2u
  | none =>
    cases hu : pget st.db.unsent_secret_requests id with
    | some v0 =>
      have hd0 : (decodeGossip v0).isSome = true := huns v0 hu
      cases hdec : decodeGossip v0 with
      | none => rw [hdec] at hd0; cases hd0
      | some r0 =>
        have hstate : deleteOutgoingSecretRequests st id true =
            ({ st with db :=
               { st.db with
                 secret_requests_by_info := pdel st.db.secret_requests_by_info r0.infoKey,
                 unsent_secret_requests := pdel st.db.unsent_secret_requests id,
                 outgoing_secret_requests := pdel st.db.outgoing_secret_requests id } }, none) := by
          simp only [deleteOutgoingSecretRequests, ho, hu, hdec]
          rfl
        rw [hstate]
        have h2o : pget (pdel st.db.outgoing_secret_requests id) id = none := pget_pdel_self _ _
        have h2u : pget (pdel st.db.unsent_secret_requests id) id = none := pget_pdel_self _ _
        have h4 : getOutgoingKeyRequestHelper
            { st.db with
              secret_requests_by_info := pdel st.db.secret_requests_by_info r0.infoKey,
              unsent_secret_requests := pdel st.db.unsent_secret_requests id,
              outgoing_secret_requests := pdel st.db.outgoing_secret_requests id } id =
            Except.ok none := by
          simp only [getOutgoingKeyRequestHelper, h2o, h2u]
        refine ⟨rfl, h2o, h2u, h4, ?_, ?_, ?_, ?_⟩
        · intro v r hv _
          exact Option.noConfusion hv
        · intro v r _ hv hr
          obtain rfl : v0 = v := Option.some.inj hv
          obtain rfl : r0 = r := Option.some.inj (hdec.symm.trans hr)
          exact pget_pdel_self _ _
        · intro dsc hdsc
          simp only [getSecretRequestByInfo, hdsc]
          exact h4
        · exact deleteOutgoingSecretRequests_noop _ _ h2o h2u
    | none =>
      have hstate : deleteOutgoingSecretRequests st id true = (st, none) :=
        deleteOutgoingSecretRequests_noop st id ho hu
      rw [hstate]
      have h4 : getOutgoingKeyRequestHelper st.db id = Except.ok none := by
        simp only [getOutgoingKeyRequestHelper, ho, hu]
      refine ⟨rfl, ho, hu, h4, ?_, ?_, ?_, hstate⟩
      · intro v r hv _
        exact Option.noConfusion hv
      · intro v r _ hv _
        exact Option.noConfusion hv
      · intro dsc hdsc
        simp only [getSecretRequestByInfo, hdsc]
        exact h4

/-- Witness for C4: deleting the only (sent) request by id succeeds,
removes it from the sent index, and a second delete with the same id is a
no-op success. -/
theorem delete_outgoing_secret_requests_idempotent_witness :
    (deleteOutgoingSecretRequests stateWithSentRequest "id1" true).2 = none ∧
    pget ((deleteOutgoingSecretRequests stateWithSentRequest "id1" true).1).db.outgoing_secret_requests "id1"
      = none ∧
    deleteOutgoingSecretRequests
        ((deleteOutgoingSecretRequests stateWithSentRequest "id1" true).1) "id1" true =
      ((deleteOutgoingSecretRequests stateWithSentRequest "id1" true).1, none) := by
  obtain ⟨h1, h2, _, _, _, _, _, h8⟩ :=
    delete_outgoing_secret_requests_idempotent stateWithSentRequest "id1"
      (by
        intro v hv
        injection hv with hv
        subst hv
        rfl)
      (by
        intro v hv
        cases hv)
  exact ⟨h1, h2, h8⟩

/-- C10: device upserts are applied before device deletions inside the
`save_changes` transaction, so whenever the same device appears among the
new or changed devices and among the deleted devices, a successful
`save_changes` leaves that device's record absent from the device
partition. -/
theorem save_changes_deleted_device_absent (c : Changes) (commitOk : Bool) (st : StoreState)
    (d : Device) (hok : (saveChanges c commitOk st).2.2 = none) (hd : d ∈ c.devices.deleted) :
    pget ((saveChanges c commitOk st).2.1).db.devices (deviceKey d) = none := by
  have hne : c.devices.deleted ≠ [] := by
    intro h0
    rw [h0] at hd
    cases hd
  rcases saveChanges_ok_split c commitOk st hok with ⟨h0, _⟩ | ⟨db2, htx, _, hst⟩
  · exact absurd h0 (touchedStores_length_ne_zero (devices_mem_touchedStores c hne))
  · rw [hst]
    show pget db2.devices (deviceKey d) = none
    simp only [txBody] at htx
    obtain ⟨d1, _, htx⟩ := bindStep_ok_split htx
    obtain ⟨d2, _, htx⟩ := bindStep_ok_split htx
    obtain ⟨d3, _, htx⟩ := bindStep_ok_split htx
    obtain ⟨d4, _, htx⟩ := bindStep_ok_split htx
    obtain ⟨d5, _, htx⟩ := bindStep_ok_split htx
    obtain ⟨d6, _, htx⟩ := bindStep_ok_split htx
    obtain ⟨d7, _, htx⟩ := bindStep_ok_split htx
    obtain ⟨d8, _, htx⟩ := bindStep_ok_split htx
    obtain ⟨d9, h9, htx⟩ := bindStep_ok_split htx
    obtain ⟨d10, h10, htx⟩ := bindStep_ok_split htx
    obtain ⟨d11, h11, htx⟩ := bindStep_ok_split htx
    have hdel : d9.devices = c.devices.deleted.foldl (fun q d2 => pdel q (deviceKey d2)) d8.devices := by
      simp only [delDevicesPhase] at h9
      cases h9
      rfl
    have e10 : d10.devices = d9.devices := putIdentitiesPhase_devices _ _ _ h10
    have e11 : d11.devices = d10.devices := putOlmHashesPhase_devices _ _ _ h11
    have e12 : db2.devices = d11.devices := putGossipRequestsPhase_devices _ _ _ htx
    rw [e12, e11, e10, hdel]
    exact pget_foldl_pdel_mem c.devices.deleted d8.devices d hd

/-- Witness for C10: a change set listing the same device as changed and as
deleted leaves no device record after a successful save. -/
theorem save_changes_deleted_device_absent_witness :
    pget ((saveChanges changesDeviceBoth true emptyState).2.1).db.devices (deviceKey devBoth) =
      none :=
  save_changes_deleted_device_absent changesDeviceBoth true emptyState devBoth rfl (by decide)

theorem trackedUserStep_accountInfo (s : StoreState) (e : String × String) :
    (trackedUserStep s e).accountInfo = s.accountInfo := by
  cases hp : parseUserId e.1 with
  | none => simp [trackedUserStep, hp]
  | some u =>
    by_cases hd : (!(e.2 = "false" : Bool)) = true <;>
      simp [trackedUserStep, hp, hd]

theorem foldl_trackedUserStep_accountInfo (l : List (String × String)) :
    ∀ s : StoreState, (l.foldl trackedUserStep s).accountInfo = s.accountInfo := by
  induction l with
  | nil => intro s; rfl
  | cons e rest ih =>
    intro s
    rw [List.foldl_cons, ih, trackedUserStep_accountInfo]

theorem loadTrackedUsers_accountInfo (st : StoreState) :
    (loadTrackedUsers st).accountInfo = st.accountInfo :=
  foldl_trackedUserStep_accountInfo st.db.tracked_users st

theorem saveChanges_accountInfo (c : Changes) (commitOk : Bool) (st : StoreState) :
    ((saveChanges c commitOk st).2.1).accountInfo = st.accountInfo := by
  by_cases h0 : (touchedStores c).length = 0
  · simp [saveChanges, h0]
  · rcases htx : txBody c st.db with ⟨tr, res⟩
    cases res with
    | error e => simp [saveChanges, h0, htx]
    | ok db2 => cases commitOk <;> simp [saveChanges, h0, htx]

/-- C8: when `get_sessions` populates the cache from the store, every
scanned entry that fails to deserialize or decrypt into a `Session` is
dropped from the result set while the remaining entries are still
returned, and the call succeeds — no single bad entry makes the whole
call fail. -/
theorem get_sessions_lenient_bulk_read (st : StoreState) (k : String) (info : AccountInfo)
    (hinfo : st.accountInfo = some info) :
    (∃ res, (getSessions st k).2 = Except.ok res) ∧
    (cacheGet st.sessionCache k = none →
      (getSessions st k).2 =
        Except.ok (some ((rangeScanValues st.db.session (makeRange k)).filterMap
          (decodeSession info)))) := by
  constructor
  · cases hc : cacheGet st.sessionCache k with
    | some l => exact ⟨some l, by simp [getSessions, hinfo, hc]⟩
    | none =>
      refine ⟨some ((rangeScanValues st.db.session (makeRange k)).filterMap
        (decodeSession info)), ?_⟩
      simp [getSessions, hinfo, hc, cacheGet_cacheSet_self]
  · intro hc
    simp [getSessions, hinfo, hc, cacheGet_cacheSet_self]

/-- Witness for C8: a sender key whose partition holds one well-formed and
one corrupt blob yields exactly the well-formed session, successfully. -/
theorem get_sessions_lenient_bulk_read_witness :
    (getSessions stateMixedSessions "k").2 =
      Except.ok (some [{ sender_key := "k", session_id := "1", ser := some "sess|k|1|d" }]) := by
  have h := (get_sessions_lenient_bulk_read stateMixedSessions "k" infoLoaded rfl).2 rfl
  rw [h]
  rfl

/-- C7 counterexample: `save_account` publishes the `AccountInfo` singleton
before persisting, so a `save_account` whose persistence fails (here: the
account fails to serialize) still leaves `AccountInfo` present — refuting
"AccountInfo is present only after a load_account or save_account call
succeeded". -/
theorem save_account_failure_leaves_account_info_set :
    (saveAccount emptyState accountBad true).2.2 = some CryptoStoreError.Serialization ∧
    ((saveAccount emptyState accountBad true).2.1).accountInfo =
      some (accountInfoOf accountBad) ∧
    emptyState.accountInfo = none :=
  ⟨rfl, rfl, rfl⟩

/-- C7 (amended): `get_sessions` fails with `AccountUnset` exactly when the
`AccountInfo` singleton is absent; `load_account` publishes `AccountInfo`
only when it succeeds with an account (and leaves it unchanged otherwise),
while `save_account` publishes it before persisting, so it is present
after any `save_account` call, even one whose persistence fails. -/
theorem account_unset_iff_account_info_absent :
    (∀ st k, ((getSessions st k).2 = Except.error CryptoStoreError.AccountUnset) ↔
      st.accountInfo = none) ∧
    (∀ st a commitOk,
      ((saveAccount st a commitOk).2.1).accountInfo = some (accountInfoOf a)) ∧
    (∀ st : StoreState,
      (∀ i, (loadAccount st).2 = Except.ok (some i) →
        ((loadAccount st).1).accountInfo = some i) ∧
      (((loadAccount st).2 = Except.ok none ∨ ∃ e, (loadAccount st).2 = Except.error e) →
        ((loadAccount st).1).accountInfo = st.accountInfo)) := by
  refine ⟨?_, ?_, ?_⟩
  · intro st k
    constructor
    · intro h
      cases hai : st.accountInfo with
      | none => rfl
      | some info =>
        exfalso
        cases hc : cacheGet st.sessionCache k with
        | some l => simp [getSessions, hai, hc] at h
        | none => simp [getSessions, hai, hc] at h
    · intro hai
      simp [getSessions, hai]
  · intro st a commitOk
    show ((saveChanges _ commitOk { st with accountInfo := some (accountInfoOf a) }).2.1).accountInfo
      = some (accountInfoOf a)
    rw [saveChanges_accountInfo]
  · intro st
    cases hg : pget st.db.core KEYS.ACCOUNT with
    | none =>
      constructor
      · intro i h
        simp [loadAccount, hg] at h
      · intro _
        simp [loadAccount, hg]
    | some v =>
      cases hd : decodeAccount v with
      | none =>
        constructor
        · intro i h
          simp [loadAccount, hg, hd] at h
        · intro _
          simp [loadAccount, hg, hd, loadTrackedUsers_accountInfo]
      | some info =>
        constructor
        · intro i h
          have hi : info = i := by
            simp [loadAccount, hg, hd] at h
            exact h
          simp [loadAccount, hg, hd, hi]
        · intro hyp
          exfalso
          rcases hyp with h1 | ⟨e, h2⟩
          · simp [loadAccount, hg, hd] at h1
          · simp [loadAccount, hg, hd] at h2

/-- Witness for C7: a fresh store fails `get_sessions` with `AccountUnset`;
a failing `save_account` still publishes the account info; a corrupt
persisted account leaves the singleton unchanged on `load_account`. -/
theorem account_unset_iff_account_info_absent_witness :
    (getSessions emptyState "k").2 = Except.error CryptoStoreError.AccountUnset ∧
    ((saveAccount emptyState accountBad true).2.1).accountInfo =
      some (accountInfoOf accountBad) ∧
    ((loadAccount stateCorruptAccount).1).accountInfo = stateCorruptAccount.accountInfo :=
  ⟨(account_unset_iff_account_info_absent.1 emptyState "k").mpr rfl,
   account_unset_iff_account_info_absent.2.1 emptyState accountBad true,
   (account_unset_iff_account_info_absent.2.2 stateCorruptAccount).2
     (Or.inr ⟨CryptoStoreError.Serialization, rfl⟩)⟩

theorem char_eq_of_toNat_eq {a b : Char} (h : a.toNat = b.toNat) : a = b :=
  Char.ext (UInt32.ext h)

theorem lexLe_nil_false (a : List Char) (h : a ≠ []) : lexLe a [] = false := by
  cases a with
  | nil => exact absurd rfl h
  | cons c cs => rfl

/-- C9 counterexample: with delimiter `:` and terminator `;`, the scan
range built for sender key `"a"` does contain the composite key of a
record whose stored first key component is `"a:"` — a proper string
extension of `"a"` (one beginning with the delimiter itself) — and the
scan returns that record, refuting the claimed universal exclusion of
proper extensions (the bound is also closed, not half-open:
`IdbKeyRange::bound` defaults to inclusive endpoints). -/
theorem range_scan_includes_delimiter_extension :
    inRange (makeRange "a") (compositeKey "a:" "s") = true ∧
    "a:" = "a" ++ ":" ∧ (":" : String) ≠ "" ∧
    rangeScanEntries [(compositeKey "a:" "s", "v")] (makeRange "a") =
      [(compositeKey "a:" "s", "v")] := by
  refine ⟨rfl, rfl, by decide, rfl⟩

/-- C9 (amended): prefix scans over composite keys use the closed range
from `P ++ ":"` to `P ++ ";"` (both endpoints inclusive, the
`IdbKeyRange::bound` default) with delimiter `:` and terminator `;`, so
for every sender key `K` a session scan never returns a record whose
stored first key component is a proper string extension of `K`, provided
the extension does not begin with the delimiter `:` itself. -/
theorem range_scan_excludes_proper_extensions (K t sid : String) (ht : t ≠ "")
    (hc : ∀ c, t.data.head? = some c → c ≠ ':') :
    inRange (makeRange K) (compositeKey (K ++ t) sid) = false ∧
    ∀ (p : Partition) (v : String),
      (compositeKey (K ++ t) sid, v) ∉ rangeScanEntries p (makeRange K) := by
  have hX : (compositeKey (K ++ t) sid).data = K.data ++ (t.data ++ (':' :: sid.data)) := by
    show ((K ++ t) ++ ":" ++ sid).data = _
    rw [string_data_append, string_data_append, string_data_append]
    simp [List.append_assoc]
  have hred : inRange (makeRange K) (compositeKey (K ++ t) sid) =
      (lexLe [':'] (t.data ++ ':' :: sid.data) &&
       lexLe (t.data ++ ':' :: sid.data) [';']) := by
    simp only [inRange, makeRange, hX, string_data_append]
    rw [lexLe_append_left, lexLe_append_left]
  have hfalse : inRange (makeRange K) (compositeKey (K ++ t) sid) = false := by
    rw [hred]
    obtain ⟨dt⟩ := t
    cases dt with
    | nil => exact absurd rfl ht
    | cons c cs =>
      have hcc : c ≠ ':' := hc c rfl
      have hcn : ¬((':' : Char).toNat = c.toNat) := fun h =>
        hcc (char_eq_of_toNat_eq h.symm)
      have hY : (cs ++ ':' :: sid.data) ≠ [] := by cases cs <;> simp
      show (lexLe (':' :: []) (c :: (cs ++ ':' :: sid.data)) &&
        lexLe (c :: (cs ++ ':' :: sid.data)) (';' :: [])) = false
      by_cases hlt : (':' : Char).toNat < c.toNat
      · have hsecond : lexLe (c :: (cs ++ ':' :: sid.data)) (';' :: []) = false := by
          show (if c.toNat < (';' : Char).toNat then true
            else if c.toNat = (';' : Char).toNat then lexLe (cs ++ ':' :: sid.data) []
            else false) = false
          have h59 : ¬(c.toNat < (';' : Char).toNat) := by
            have e1 : (':' : Char).toNat = 58 := rfl
            have e2 : (';' : Char).toNat = 59 := rfl
            rw [e1] at hlt
            rw [e2]
            omega
          rw [if_neg h59]
          by_cases he : c.toNat = (';' : Char).toNat
          · rw [if_pos he]
            exact lexLe_nil_false _ hY
          · rw [if_neg he]
        rw [hsecond, Bool.and_false]
      · have hfirst : lexLe (':' :: []) (c :: (cs ++ ':' :: sid.data)) = false := by
          show (if (':' : Char).toNat < c.toNat then true
            else if (':' : Char).toNat = c.toNat then lexLe [] (cs ++ ':' :: sid.data)
            else false) = false
          rw [if_neg hlt, if_neg hcn]
        rw [hfirst, Bool.false_and]
  refine ⟨hfalse, ?_⟩
  intro p v hm
  have hr := (List.mem_filter.mp hm).2
  simp only at hr
  rw [hfalse] at hr
  cases hr

/-- Witness for C9: scanning for `"abc"` never returns a record keyed
under the extension `"abcd"`. -/
theorem range_scan_excludes_proper_extensions_witness :
    inRange (makeRange "abc") (compositeKey ("abc" ++ "d") "s") = false ∧
    ∀ (v : String),
      (compositeKey ("abc" ++ "d") "s", v) ∉
        rangeScanEntries [(compositeKey "abcd" "s", "v")] (makeRange "abc") := by
  obtain ⟨h1, h2⟩ :=
    range_scan_excludes_proper_extensions "abc" "d" "s" (by decide)
      (fun c hch => by
        injection hch with hch
        subst hch
        decide)
  exact ⟨h1, fun v => h2 [(compositeKey "abcd" "s", "v")] v⟩

end MatrixSdkCrypto
